import Mathlib

/-
Verification development for the DRL_PairsTrading model (DRL_PairsTrading.py).

The model is a TensorFlow-1.x computation graph: a dense feed-forward encoder,
a multi-layer GRU recurrent stack, a tanh action head over the concatenated
output sequence (previous carried output prepended), a transaction-cost-aware
log-reward, and three selectable training objectives (cumulative log reward,
Sharpe, Sortino).  Tensors of shape [n, 1] are embedded as `List ℝ`, matrices
as `List (List ℝ)`; the stochastic dropout mask is an explicit argument.
Division on ℝ is Lean's total division (the float code produces NaN/inf at a
zero divisor; the embedding identifies the zero-divisor condition instead).
-/

/-- Objective selector.  The constructor dispatches on the `object_function`
string: `if object_function == 'reward' ... elif object_function == 'sharpe'
... else ...` (lines 70-75). -/
inductive Objective
  | reward
  | sharpe
  | sortino
deriving DecidableEq

/-- The string dispatch of the constructor (lines 70-75): `'reward'` picks the
cumulative-log-reward objective, `'sharpe'` the Sharpe objective, and every
other string falls into the final `else` branch, which picks Sortino. -/
def selectObjective (s : String) : Objective :=
  if s = "reward" then Objective.reward
  else if s = "sharpe" then Objective.sharpe
  else Objective.sortino

/-- A file system for `save_model`: the set of existing directories, each a
path given as its list of components (`[]` is the current working directory,
always present in well-formed states). -/
structure FileSystem where
  dirs : List (List String)
deriving DecidableEq

/-- `os.path.exists(p)` restricted to directories. -/
def dirExists (fs : FileSystem) (p : List String) : Bool :=
  fs.dirs.contains p

/-- The parent directory of a path (drop the last component). -/
def parentDir (p : List String) : List String :=
  p.dropLast

/-- `os.mkdir(p)`: per the Python library semantics it creates only the leaf
directory; it raises `FileExistsError` when `p` exists and `FileNotFoundError`
when the parent directory does not exist (it does not create intermediate
directories, unlike `os.makedirs`). -/
def osMkdir (fs : FileSystem) (p : List String) : Except String FileSystem :=
  if dirExists fs p then Except.error "FileExistsError"
  else if dirExists fs (parentDir p) then Except.ok ⟨p :: fs.dirs⟩
  else Except.error "FileNotFoundError"

/-- `save_model` (lines 129-133): `if not os.path.exists(model_path):
os.mkdir(model_path)`, then the checkpoint is written into `model_path`.  The
returned state is the file system after the call; an `Except.error` is the
Python exception escaping `save_model`. -/
def save_model (fs : FileSystem) (modelPath : List String) : Except String FileSystem :=
  if dirExists fs modelPath then Except.ok fs
  else osMkdir fs modelPath

noncomputable section

/-- Dot product of two vectors (rows), truncating to the shorter length. -/
def dot (v w : List ℝ) : ℝ :=
  (List.zipWith (fun a b => a * b) v w).sum

/-- Matrix-vector product: one dot product per matrix row (rows are output
units). -/
def matVec (M : List (List ℝ)) (v : List ℝ) : List ℝ :=
  M.map (fun row => dot row v)

/-- Affine map `M v + b`, the core of `tf.contrib.layers.fully_connected`. -/
def affine (M : List (List ℝ)) (b v : List ℝ) : List ℝ :=
  List.zipWith (fun a c => a + c) (matVec M v) b

/-- Logistic sigmoid, the gate nonlinearity of `tf.contrib.rnn.GRUCell`. -/
def sigmoid (x : ℝ) : ℝ :=
  1 / (1 + Real.exp (-x))

/-- Parameters of one `tf.contrib.rnn.GRUCell` (line 106-107): a joint
reset/update gate layer and a candidate layer. -/
structure GRUCellParams where
  gateKernel : List (List ℝ)
  gateBias : List ℝ
  candidateKernel : List (List ℝ)
  candidateBias : List ℝ

/-- One step of a GRU cell on input `x` and state `h`:
`r, u = sigmoid(gate([x; h]))`, `c = tanh(candidate([x; r*h]))`,
`h' = u*h + (1-u)*c` (the TF GRUCell convention).  The output equals the new
state. -/
def gruCellStep (p : GRUCellParams) (x h : List ℝ) : List ℝ :=
  let gates := (affine p.gateKernel p.gateBias (x ++ h)).map sigmoid
  let r := gates.take h.length
  let u := gates.drop h.length
  let c := (affine p.candidateKernel p.candidateBias
      (x ++ List.zipWith (fun a b => a * b) r h)).map Real.tanh
  List.zipWith (fun a b => a + b)
    (List.zipWith (fun a b => a * b) u h)
    (List.zipWith (fun a b => a * b) (u.map (fun a => 1 - a)) c)

/-- One step of `tf.contrib.rnn.MultiRNNCell` over a list of layer cells: the
input flows upward through the layers, each layer consuming its own entry of
the state list; returns the top-layer output and the new per-layer states. -/
def multiCellStep : List GRUCellParams → List (List ℝ) → List ℝ → List ℝ × List (List ℝ)
  | [], _, x => (x, [])
  | _ :: _, [], x => (x, [])
  | c :: cs, s :: ss, x =>
    let h := gruCellStep c x s
    let rest := multiCellStep cs ss h
    (rest.1, h :: rest.2)

/-- The spec-side description of the layer stack in §4.2/§9: `n` applications
of one and the same shared cell, each consuming one entry of the state list.
Used to compare against `multiCellStep` on the replicated cell list. -/
def sharedCellIter (c : GRUCellParams) : ℕ → List (List ℝ) → List ℝ → List ℝ × List (List ℝ)
  | 0, _, x => (x, [])
  | _ + 1, [], x => (x, [])
  | n + 1, s :: ss, x =>
    let h := gruCellStep c x s
    let rest := sharedCellIter c n ss h
    (rest.1, h :: rest.2)

/-- `tf.nn.dynamic_rnn` on a single-batch sequence: one multi-cell step per
timestep, returning the per-timestep top-layer outputs and the final
per-layer states. -/
def dynamicRNN (cells : List GRUCellParams) :
    List (List ℝ) → List (List ℝ) → List (List ℝ) × List (List ℝ)
  | [], s => ([], s)
  | x :: xs, s =>
    let step := multiCellStep cells s x
    let rest := dynamicRNN cells xs step.2
    (step.1 :: rest.1, rest.2)

/-- Parameters of one dense encoder layer (`_add_dense_layer`, lines
101-104). -/
structure DenseLayerParams where
  kernel : List (List ℝ)
  bias : List ℝ

/-- `_add_dense_layer`: fully connected with tanh activation followed by
`tf.nn.dropout`.  Dropout is embedded with an explicit 0/1 `mask` and the
inverse-keep-probability scaling TF applies to kept units. -/
def denseLayerApply (L : DenseLayerParams) (keepProb : ℝ) (mask : List ℝ) (v : List ℝ) :
    List ℝ :=
  List.zipWith (fun mv y => mv * y / keepProb) mask ((affine L.kernel L.bias v).map Real.tanh)

/-- The encoder stack applied to one feature row: each dense layer (paired
with its dropout mask) in order (lines 46-49). -/
def encodeRow : List (DenseLayerParams × List ℝ) → ℝ → List ℝ → List ℝ
  | [], _, v => v
  | L :: rest, kp, v => encodeRow rest kp (denseLayerApply L.1 kp L.2 v)

/-- The trainable parameters of the model: the dense stack (the
`dense_units_list` layers plus the final projection to the recurrent width),
the single GRU cell that is replicated into the layer stack, the number of
recurrent layers, and the width-1 action projection. -/
structure DRLModel where
  denseLayers : List DenseLayerParams
  rnnCell : GRUCellParams
  rnnLayerNumber : ℕ
  actionKernel : List ℝ
  actionBias : ℝ

/-- Line 52: `rnn_hidden_cells = [self._add_gru_cell(rnn_hidden_units_number)]
* rnn_hidden_layer_number` — Python list repetition of the one cell object
returned by the single `_add_gru_cell` call. -/
def rnn_hidden_cells (m : DRLModel) : List GRUCellParams :=
  List.replicate m.rnnLayerNumber m.rnnCell

/-- The encoder applied to the whole feature batch (one row per timestep). -/
def encBatch (m : DRLModel) (f : List (List ℝ)) (kp : ℝ) (masks : List (List ℝ)) :
    List (List ℝ) :=
  f.map (encodeRow (m.denseLayers.zip masks) kp)

/-- The recurrent pass (line 56): `dynamic_rnn` of the layered cell over the
encoded batch, from the caller-supplied initial state; first component is the
raw per-timestep output sequence `rnn_outputs[0]` before any concatenation,
second is `current_state`. -/
def rawRnn (m : DRLModel) (f : List (List ℝ)) (kp : ℝ) (masks s0 : List (List ℝ)) :
    List (List ℝ) × List (List ℝ) :=
  dynamicRNN (rnn_hidden_cells m) (encBatch m f kp masks) s0

/-- The action head (line 60): a width-1 fully connected layer with `tf.tanh`
activation applied to every row of the concatenated output sequence. -/
def actionHead (m : DRLModel) (outs : List (List ℝ)) : List ℝ :=
  outs.map (fun o => Real.tanh (dot m.actionKernel o + m.actionBias))

/-- Line 62: `log_reward_t = tf.log(z) * action[:-1] - c * tf.abs(action[1:] -
action[:-1])`, element-wise over the timesteps; the pair list `a.zip a.tail`
carries `(action[t], action[t+1])`. -/
def logRewardT (z a : List ℝ) (c : ℝ) : List ℝ :=
  List.zipWith (fun zt p => Real.log zt * p.1 - c * |p.2 - p.1|) z (a.zip a.tail)

/-- The five tensors fetched by `trade` (line 136): `log_reward_t`,
`cum_log_reward`, `action`, `current_state`, `current_output`. -/
structure TradeResult where
  rewards : List ℝ
  cumLogReward : ℝ
  actions : List ℝ
  currentState : List (List ℝ)
  currentOutput : List ℝ

/-- One evaluation of the graph as fetched by `trade`: encoder, recurrent
pass, `current_output = rnn_outputs[0][-1]` taken from the raw output sequence
(line 57), then the previous carried output prepended (line 58), the action
head, and the reward computation. -/
def forward (m : DRLModel) (f : List (List ℝ)) (z : List ℝ) (fee kp : ℝ)
    (masks s0 : List (List ℝ)) (prevOutput : List ℝ) : TradeResult :=
  let raw := rawRnn m f kp masks s0
  let acts := actionHead m (prevOutput :: raw.1)
  let rew := logRewardT z acts fee
  ⟨rew, rew.sum, acts, raw.2, raw.1.getLastD []⟩

/-- Line 63: `cum_log_reward = tf.reduce_sum(log_reward_t)`. -/
def cum_log_reward (r : List ℝ) : ℝ :=
  r.sum

/-- Line 64: `reward_t = tf.exp(log_reward_t)`. -/
def reward_t (r : List ℝ) : List ℝ :=
  r.map Real.exp

/-- Line 65: `cum_reward = tf.reduce_prod(reward_t)`. -/
def cum_reward (r : List ℝ) : ℝ :=
  (reward_t r).prod

/-- The mean of `tf.nn.moments(·, axes=[0])` on an `[n, 1]` tensor. -/
def listMean (l : List ℝ) : ℝ :=
  l.sum / l.length

/-- The variance of `tf.nn.moments(·, axes=[0])`: the mean squared deviation
from the mean (population variance). -/
def listVar (l : List ℝ) : ℝ :=
  ((l.map (fun x => (x - listMean l) ^ 2)).sum) / l.length

/-- `_sharpe_ratio(r, rf)` (lines 97-99): `mean, var = tf.nn.moments(r - rf)`;
returns `mean / var`. -/
def sharpeOf (r : List ℝ) (rf : ℝ) : ℝ :=
  listMean (r.map (fun x => x - rf)) / listVar (r.map (fun x => x - rf))

/-- Line 67: `sharpe = _sharpe_ratio(log_reward_t, 0)`. -/
def sharpe (r : List ℝ) : ℝ :=
  sharpeOf r 0

/-- The downside indicator of `_sortino_ratio` (line 89):
`sign(-sign(x - rf) + 1)` with `tf.sign` semantics (`Real.sign`). -/
def downSign (x rf : ℝ) : ℝ :=
  Real.sign (-Real.sign (x - rf) + 1)

/-- Line 90: `number = tf.reduce_sum(sign)`, the downside count. -/
def sortino_number (r : List ℝ) (rf : ℝ) : ℝ :=
  (r.map (fun x => downSign x rf)).sum

/-- Lines 91-92: `lower = sign * r; square_sum = tf.reduce_sum(tf.pow(lower,
2))`. -/
def sortino_square_sum (r : List ℝ) (rf : ℝ) : ℝ :=
  (r.map (fun x => (downSign x rf * x) ^ 2)).sum

/-- Line 93: `sortino_var = tf.sqrt(square_sum / number)`. -/
def sortino_var (r : List ℝ) (rf : ℝ) : ℝ :=
  Real.sqrt (sortino_square_sum r rf / sortino_number r rf)

/-- `_sortino_ratio(r, rf)` (lines 87-95): `(mean - rf) / sortino_var` with
`mean` the first moment of `r`. -/
def sortinoOf (r : List ℝ) (rf : ℝ) : ℝ :=
  (listMean r - rf) / sortino_var r rf

/-- Line 66: `sortino = _sortino_ratio(log_reward_t, 0)`. -/
def sortino (r : List ℝ) : ℝ :=
  sortinoOf r 0

/-- The loss the constructor hands to the Adam optimizer (lines 68-75): the
negation of the objective selected by the `object_function` string, as a
function of the per-step log-reward batch. -/
def lossOf (objectFunction : String) (r : List ℝ) : ℝ :=
  match selectObjective objectFunction with
  | Objective.reward => -(cum_log_reward r)
  | Objective.sharpe => -(sharpe r)
  | Objective.sortino => -(sortino r)

/-- A minimal concrete model instance (one dense layer, one recurrent layer,
scalar widths) used to instantiate universally quantified theorems. -/
def tinyModel : DRLModel :=
  ⟨[⟨[[1]], [0]⟩], ⟨[[1]], [0], [[1]], [0]⟩, 1, [1], 0⟩

end

theorem dynamicRNN_fst_length (cells : List GRUCellParams) (inputs s0 : List (List ℝ)) :
    (dynamicRNN cells inputs s0).1.length = inputs.length := by
  induction inputs generalizing s0 with
  | nil => rfl
  | cons x xs ih => simp [dynamicRNN, ih]

theorem logRewardT_length (z a : List ℝ) (c : ℝ) :
    (logRewardT z a c).length = min z.length (a.length - 1) := by
  simp [logRewardT]

theorem tanh_bounds (x : ℝ) : -1 < Real.tanh x ∧ Real.tanh x < 1 := by
  rw [Real.tanh_eq_sinh_div_cosh]
  constructor
  · rw [neg_lt, ← neg_div, div_lt_one (Real.cosh_pos x)]
    have h := Real.sinh_lt_cosh (-x)
    rwa [Real.sinh_neg, Real.cosh_neg] at h
  · rw [div_lt_one (Real.cosh_pos x)]
    exact Real.sinh_lt_cosh x

theorem exp_list_sum (l : List ℝ) : (l.map Real.exp).prod = Real.exp l.sum := by
  induction l with
  | nil => simp
  | cons x xs ih => simp [Real.exp_add, ih]

/-- C1: for an action sequence of length T+1 and a realized return vector of
length T, the per-step reward tensor of line 62 satisfies, at every index
t < T, `log_reward[t] = log(return[t]) * action[t] - fee * |action[t+1] -
action[t]|`: the return is credited on the previously held position and the
fee is charged on the absolute position change. -/
theorem log_reward_step_formula (z a : List ℝ) (c : ℝ) (t : ℕ)
    (hlen : a.length = z.length + 1) (ht : t < z.length) :
    (logRewardT z a c).getD t 0 =
      Real.log (z.getD t 0) * a.getD t 0 - c * |a.getD (t + 1) 0 - a.getD t 0| := by
  induction t generalizing z a with
  | zero =>
    cases z with
    | nil => simp at ht
    | cons z0 zs =>
      cases a with
      | nil => simp at hlen
      | cons a0 rest =>
        cases rest with
        | nil =>
          simp only [List.length_cons, List.length_nil] at hlen
          omega
        | cons a1 as => simp [logRewardT]
  | succ t ih =>
    cases z with
    | nil => simp at ht
    | cons z0 zs =>
      cases a with
      | nil => simp at hlen
      | cons a0 rest =>
        cases rest with
        | nil =>
          simp only [List.length_cons, List.length_nil] at hlen
          omega
        | cons a1 as =>
          have hlen' : (a1 :: as).length = zs.length + 1 := by
            simpa using hlen
          have ht' : t < zs.length := by
            simpa using ht
          simpa [logRewardT] using ih zs (a1 :: as) hlen' ht'

/-- C1 witness: the formula instantiated at `z = [1, 2]`, `a = [0, 1, 0]`,
`c = 1`, `t = 1`. -/
theorem log_reward_step_formula_witness :
    ([(0 : ℝ), 1, 0].length = [(1 : ℝ), 2].length + 1) ∧
    (1 < [(1 : ℝ), 2].length) ∧
    (logRewardT [(1 : ℝ), 2] [(0 : ℝ), 1, 0] 1).getD 1 0 =
      Real.log ([(1 : ℝ), 2].getD 1 0) * [(0 : ℝ), 1, 0].getD 1 0 -
        1 * |[(0 : ℝ), 1, 0].getD 2 0 - [(0 : ℝ), 1, 0].getD 1 0| :=
  ⟨by decide, by decide,
    log_reward_step_formula [(1 : ℝ), 2] [(0 : ℝ), 1, 0] 1 1 (by decide) (by decide)⟩

/-- C2: on a batch of T timesteps (T feature rows and T returns) the action
sequence returned by `trade` has exactly T+1 elements (the carried previous
output prepended to the T recurrent outputs) and the per-step reward sequence
has exactly one element fewer, namely T elements. -/
theorem trade_sequence_lengths (m : DRLModel) (f : List (List ℝ)) (z : List ℝ)
    (fee kp : ℝ) (masks s0 : List (List ℝ)) (p : List ℝ)
    (hz : z.length = f.length) :
    (forward m f z fee kp masks s0 p).actions.length = f.length + 1 ∧
    (forward m f z fee kp masks s0 p).rewards.length =
      (forward m f z fee kp masks s0 p).actions.length - 1 ∧
    (forward m f z fee kp masks s0 p).rewards.length = f.length := by
  have hact : (forward m f z fee kp masks s0 p).actions.length = f.length + 1 := by
    simp [forward, actionHead, rawRnn, dynamicRNN_fst_length, encBatch]
  have hrew : (forward m f z fee kp masks s0 p).rewards.length = f.length := by
    have : (forward m f z fee kp masks s0 p).rewards =
        logRewardT z (forward m f z fee kp masks s0 p).actions fee := rfl
    rw [this, logRewardT_length, hact, hz]
    omega
  exact ⟨hact, by omega, hrew⟩

/-- C2 witness: the length invariant instantiated at the one-layer model on a
batch of one timestep. -/
theorem trade_sequence_lengths_witness :
    ([(1 : ℝ)].length = [[(1 : ℝ)]].length) ∧
    ((forward tinyModel [[(1 : ℝ)]] [(1 : ℝ)] 0 1 [[(1 : ℝ)]] [[(0 : ℝ)]] [(0 : ℝ)]).actions.length =
        [[(1 : ℝ)]].length + 1 ∧
      (forward tinyModel [[(1 : ℝ)]] [(1 : ℝ)] 0 1 [[(1 : ℝ)]] [[(0 : ℝ)]] [(0 : ℝ)]).rewards.length =
        (forward tinyModel [[(1 : ℝ)]] [(1 : ℝ)] 0 1 [[(1 : ℝ)]] [[(0 : ℝ)]] [(0 : ℝ)]).actions.length - 1 ∧
      (forward tinyModel [[(1 : ℝ)]] [(1 : ℝ)] 0 1 [[(1 : ℝ)]] [[(0 : ℝ)]] [(0 : ℝ)]).rewards.length =
        [[(1 : ℝ)]].length) :=
  ⟨rfl, trade_sequence_lengths tinyModel [[(1 : ℝ)]] [(1 : ℝ)] 0 1 [[(1 : ℝ)]] [[(0 : ℝ)]]
    [(0 : ℝ)] rfl⟩

/-- C3: every element of the action sequence produced by the tanh action head
lies strictly inside the open interval (-1, 1), for every model instance and
every input batch. -/
theorem action_output_bounded (m : DRLModel) (f : List (List ℝ)) (z : List ℝ)
    (fee kp : ℝ) (masks s0 : List (List ℝ)) (p : List ℝ) :
    ∀ x ∈ (forward m f z fee kp masks s0 p).actions, -1 < x ∧ x < 1 := by
  intro x hx
  have : (forward m f z fee kp masks s0 p).actions =
      actionHead m (p :: (rawRnn m f kp masks s0).1) := rfl
  rw [this, actionHead, List.mem_map] at hx
  obtain ⟨o, _, rfl⟩ := hx
  exact tanh_bounds _

/-- C3 witness: the bound instantiated at the one-layer model on the empty
batch, whose unique action row is the carried previous output. -/
theorem action_output_bounded_witness :
    Real.tanh (dot [(1 : ℝ)] [(0 : ℝ)] + 0) ∈
      (forward tinyModel [] [] 0 1 [] [] [(0 : ℝ)]).actions ∧
    (-1 < Real.tanh (dot [(1 : ℝ)] [(0 : ℝ)] + 0) ∧
      Real.tanh (dot [(1 : ℝ)] [(0 : ℝ)] + 0) < 1) :=
  ⟨List.mem_singleton.mpr rfl,
    action_output_bounded tinyModel [] [] 0 1 [] [] [(0 : ℝ)] _ (List.mem_singleton.mpr rfl)⟩

/-- C4: the cumulative log-reward tensor is the sum of the per-step
log-rewards, the cumulative compounded reward is the product of
`exp(log_reward[t])`, and consequently the cumulative compounded reward equals
the exponential of the cumulative log-reward. -/
theorem cumulative_reward_consistency (m : DRLModel) (f : List (List ℝ)) (z : List ℝ)
    (fee kp : ℝ) (masks s0 : List (List ℝ)) (p : List ℝ) :
    (forward m f z fee kp masks s0 p).cumLogReward =
      cum_log_reward (forward m f z fee kp masks s0 p).rewards ∧
    cum_reward (forward m f z fee kp masks s0 p).rewards =
      ((forward m f z fee kp masks s0 p).rewards.map Real.exp).prod ∧
    cum_reward (forward m f z fee kp masks s0 p).rewards =
      Real.exp (cum_log_reward (forward m f z fee kp masks s0 p).rewards) :=
  ⟨rfl, rfl, exp_list_sum _⟩

/-- C5: the Sharpe statistic of the graph is `_sharpe_ratio(log_reward_t, 0)`:
the batch mean of the per-step log-rewards divided by their population
variance (not their standard deviation), with a zero risk-free argument. -/
theorem sharpe_is_mean_div_variance (r : List ℝ) :
    sharpe r = sharpeOf r 0 ∧ sharpe r = listMean r / listVar r := by
  refine ⟨rfl, ?_⟩
  have hmap : r.map (fun x => x - (0 : ℝ)) = r := by simp
  simp only [sharpe, sharpeOf, hmap]

theorem downSign_eq (x rf : ℝ) : downSign x rf = if x ≤ rf then 1 else 0 := by
  unfold downSign
  rcases lt_trichotomy x rf with h | h | h
  · rw [Real.sign_of_neg (by linarith : x - rf < 0), if_pos h.le]
    have h2 : (-(-1 : ℝ) + 1) = 2 := by norm_num
    rw [h2, Real.sign_of_pos (by norm_num : (0 : ℝ) < 2)]
  · rw [h, sub_self, Real.sign_zero, if_pos le_rfl]
    have h1 : (-(0 : ℝ) + 1) = 1 := by norm_num
    rw [h1, Real.sign_one]
  · rw [Real.sign_of_pos (by linarith : 0 < x - rf), if_neg (not_le.mpr h)]
    have h0 : (-(1 : ℝ) + 1) = 0 := by norm_num
    rw [h0, Real.sign_zero]

theorem sum_ite_eq_countP (xs : List ℝ) (rf : ℝ) :
    (xs.map (fun x => if x ≤ rf then (1 : ℝ) else 0)).sum =
      ((xs.countP (fun x => decide (x ≤ rf)) : ℕ) : ℝ) := by
  induction xs with
  | nil => simp
  | cons x xs ih =>
    simp only [List.map_cons, List.sum_cons, List.countP_cons, ih]
    by_cases h : x ≤ rf
    · simp [h]
      ring
    · simp [h]

theorem sortino_number_eq_count (r : List ℝ) (rf : ℝ) :
    sortino_number r rf = ((r.countP (fun x => decide (x ≤ rf)) : ℕ) : ℝ) := by
  simp only [sortino_number, downSign_eq]
  exact sum_ite_eq_countP r rf

theorem sum_downsign_sq (xs : List ℝ) (rf : ℝ) :
    (xs.map (fun x => (downSign x rf * x) ^ 2)).sum =
      ((xs.filter (fun x => decide (x ≤ rf))).map (fun x => x ^ 2)).sum := by
  induction xs with
  | nil => simp
  | cons x xs ih =>
    simp only [List.map_cons, List.sum_cons, List.filter_cons]
    rw [downSign_eq]
    by_cases h : x ≤ rf
    · simp [h, ih]
    · simp [h, ih]

theorem sortino_square_sum_eq (r : List ℝ) (rf : ℝ) :
    sortino_square_sum r rf =
      ((r.filter (fun x => decide (x ≤ rf))).map (fun x => x ^ 2)).sum := by
  simp only [sortino_square_sum]
  exact sum_downsign_sq r rf

/-- C6: with a zero target, the downside count of the Sortino computation is
the number of samples with `log_reward ≤ 0` (so an all-positive batch has a
downside count of zero and `sqrt(square_sum / number)` divides by zero — in
the float graph this yields NaN/inf, with no substituted default), and the
Sortino value equals `(mean - target) / sqrt(sum of downside squares /
downside count)`. -/
theorem sortino_downside_spec (r : List ℝ) :
    sortino_number r 0 = ((r.countP (fun x => decide (x ≤ 0)) : ℕ) : ℝ) ∧
    ((∀ x ∈ r, (0 : ℝ) < x) → sortino_number r 0 = 0) ∧
    sortino r = (listMean r - 0) /
      Real.sqrt (((r.filter (fun x => decide (x ≤ 0))).map (fun x => x ^ 2)).sum /
        sortino_number r 0) := by
  refine ⟨sortino_number_eq_count r 0, ?_, ?_⟩
  · intro hpos
    rw [sortino_number_eq_count]
    norm_cast
    rw [List.countP_eq_zero]
    intro x hx
    simpa using (hpos x hx).not_le
  · simp only [sortino, sortinoOf, sortino_var, sortino_square_sum_eq]

/-- C6 witness: at the batch `[-1]` the downside count is one (the sample is
downside) while at the all-positive batch `[1]` it is zero. -/
theorem sortino_downside_spec_witness :
    sortino_number [(-1 : ℝ)] 0 = 1 ∧ sortino_number [(1 : ℝ)] 0 = 0 := by
  constructor
  · have h := (sortino_downside_spec [(-1 : ℝ)]).1
    rw [h]
    norm_num [List.countP_cons, List.countP_nil]
  · exact (sortino_downside_spec [(1 : ℝ)]).2.1 (by norm_num)

theorem multiCellStep_replicate (c : GRUCellParams) :
    ∀ (n : ℕ) (ss : List (List ℝ)) (x : List ℝ),
      multiCellStep (List.replicate n c) ss x = sharedCellIter c n ss x := by
  intro n
  induction n with
  | zero => intro ss x; rfl
  | succ n ih =>
    intro ss x
    cases ss with
    | nil => rfl
    | cons s ss2 =>
      simp only [List.replicate_succ, multiCellStep, sharedCellIter, ih]

/-- C7: the recurrent stack of line 52 is one and the same GRU cell replicated
`rnn_hidden_layer_number` times, so the layered transition of the multi-layer
cell equals that many applications of the single shared cell: the stack has
shared parameters, not independently parameterized layers. -/
theorem layered_cell_is_shared_cell (m : DRLModel) (ss : List (List ℝ)) (x : List ℝ) :
    multiCellStep (rnn_hidden_cells m) ss x =
      sharedCellIter m.rnnCell m.rnnLayerNumber ss x := by
  simp only [rnn_hidden_cells]
  exact multiCellStep_replicate m.rnnCell m.rnnLayerNumber ss x

theorem getLast?_eq_getLastD (l : List (List ℝ)) :
    ∀ d, l ≠ [] → l.getLast? = some (l.getLastD d) := by
  induction l with
  | nil => intro d h; exact absurd rfl h
  | cons a t ih =>
    intro d _
    cases t with
    | nil => rfl
    | cons b t2 =>
      rw [List.getLast?_cons_cons]
      exact ih a (by simp)

/-- C8: the new carried output returned by `trade` (its fifth value) is the
recurrent output at the final timestep of the raw output sequence of line 56,
taken at line 57 before the previous carried output is prepended at line 58 —
hence it does not depend on the previous carried output — and threading it
into the next call prepends it onto the start of the next call's concatenated
output sequence. -/
theorem carried_output_spec (m : DRLModel) (f f2 : List (List ℝ)) (z z2 : List ℝ)
    (fee kp : ℝ) (masks s0 : List (List ℝ)) (p p' : List ℝ)
    (hf : f ≠ []) :
    (rawRnn m f kp masks s0).1.getLast? =
      some ((forward m f z fee kp masks s0 p).currentOutput) ∧
    (forward m f z fee kp masks s0 p).currentOutput =
      (forward m f z fee kp masks s0 p').currentOutput ∧
    (forward m f2 z2 fee kp masks (forward m f z fee kp masks s0 p).currentState
        ((forward m f z fee kp masks s0 p).currentOutput)).actions =
      actionHead m ((forward m f z fee kp masks s0 p).currentOutput ::
        (rawRnn m f2 kp masks (forward m f z fee kp masks s0 p).currentState).1) := by
  refine ⟨?_, rfl, rfl⟩
  have hlen : (rawRnn m f kp masks s0).1.length = f.length := by
    simp [rawRnn, dynamicRNN_fst_length, encBatch]
  have hne : (rawRnn m f kp masks s0).1 ≠ [] := by
    intro hnil
    rw [hnil] at hlen
    exact hf (List.length_eq_zero.mp hlen.symm)
  exact getLast?_eq_getLastD _ [] hne

/-- C8 witness: the carried-output property instantiated at the one-layer
model on a batch of one timestep. -/
theorem carried_output_spec_witness :
    ([[(1 : ℝ)]] ≠ ([] : List (List ℝ))) ∧
    ((rawRnn tinyModel [[(1 : ℝ)]] 1 [[(1 : ℝ)]] [[(0 : ℝ)]]).1.getLast? =
      some ((forward tinyModel [[(1 : ℝ)]] [(1 : ℝ)] 0 1 [[(1 : ℝ)]] [[(0 : ℝ)]]
        [(0 : ℝ)]).currentOutput) ∧
    (forward tinyModel [[(1 : ℝ)]] [(1 : ℝ)] 0 1 [[(1 : ℝ)]] [[(0 : ℝ)]]
        [(0 : ℝ)]).currentOutput =
      (forward tinyModel [[(1 : ℝ)]] [(1 : ℝ)] 0 1 [[(1 : ℝ)]] [[(0 : ℝ)]]
        [(1 : ℝ)]).currentOutput ∧
    (forward tinyModel [] [] 0 1 [[(1 : ℝ)]]
        (forward tinyModel [[(1 : ℝ)]] [(1 : ℝ)] 0 1 [[(1 : ℝ)]] [[(0 : ℝ)]]
          [(0 : ℝ)]).currentState
        ((forward tinyModel [[(1 : ℝ)]] [(1 : ℝ)] 0 1 [[(1 : ℝ)]] [[(0 : ℝ)]]
          [(0 : ℝ)]).currentOutput)).actions =
      actionHead tinyModel
        ((forward tinyModel [[(1 : ℝ)]] [(1 : ℝ)] 0 1 [[(1 : ℝ)]] [[(0 : ℝ)]]
          [(0 : ℝ)]).currentOutput ::
        (rawRnn tinyModel [] 1 [[(1 : ℝ)]]
          (forward tinyModel [[(1 : ℝ)]] [(1 : ℝ)] 0 1 [[(1 : ℝ)]] [[(0 : ℝ)]]
            [(0 : ℝ)]).currentState).1)) :=
  ⟨by simp,
    carried_output_spec tinyModel [[(1 : ℝ)]] [] [(1 : ℝ)] [] 0 1 [[(1 : ℝ)]] [[(0 : ℝ)]]
      [(0 : ℝ)] [(1 : ℝ)] (by simp)⟩

/-- C9 counterexample: with only the working directory present, the save path
`a/b` has an absent destination directory, yet `save_model` raises
`FileNotFoundError`, because Python `os.mkdir` does not create the missing
parent directory `a`; so a missing save directory can be an error. -/
theorem save_model_missing_parent_fails :
    dirExists ⟨[[]]⟩ ["a", "b"] = false ∧
    save_model ⟨[[]]⟩ ["a", "b"] = Except.error "FileNotFoundError" :=
  ⟨rfl, rfl⟩

/-- C9 amended: for every save path whose destination directory is absent but
whose parent directory exists, `save_model` creates the destination directory
and the save succeeds. -/
theorem save_model_creates_missing_dir (fs : FileSystem) (p : List String)
    (habs : dirExists fs p = false) (hparent : dirExists fs (parentDir p) = true) :
    save_model fs p = Except.ok ⟨p :: fs.dirs⟩ ∧
    dirExists ⟨p :: fs.dirs⟩ p = true := by
  constructor
  · simp [save_model, osMkdir, habs, hparent]
  · simp [dirExists]

/-- C9 amended witness: creating the single-component directory `a` under the
existing working directory succeeds. -/
theorem save_model_creates_missing_dir_witness :
    dirExists ⟨[[]]⟩ ["a"] = false ∧
    dirExists ⟨[[]]⟩ (parentDir ["a"]) = true ∧
    (save_model ⟨[[]]⟩ ["a"] = Except.ok ⟨[["a"], []]⟩ ∧
      dirExists ⟨[["a"], []]⟩ ["a"] = true) :=
  ⟨rfl, rfl, save_model_creates_missing_dir ⟨[[]]⟩ ["a"] rfl rfl⟩

/-- C10: every `object_function` string other than the exact strings `reward`
and `sharpe` — misspellings and arbitrary strings included — silently selects
the Sortino objective, so the loss handed to the optimizer is the negated
Sortino value; the total dispatch function raises no error. -/
theorem unknown_objective_selects_sortino (s : String) (r : List ℝ)
    (h1 : s ≠ "reward") (h2 : s ≠ "sharpe") :
    selectObjective s = Objective.sortino ∧ lossOf s r = -(sortino r) := by
  constructor
  · simp [selectObjective, h1, h2]
  · simp [lossOf, selectObjective, h1, h2]

/-- C10 witness: the misspelled objective string `Reward` falls through to the
Sortino objective. -/
theorem unknown_objective_selects_sortino_witness :
    ("Reward" ≠ "reward") ∧ ("Reward" ≠ "sharpe") ∧
    (selectObjective "Reward" = Objective.sortino ∧
      lossOf "Reward" [] = -(sortino [])) :=
  ⟨by decide, by decide,
    unknown_objective_selects_sortino "Reward" [] (by decide) (by decide)⟩
